import Mathlib

/-!
Verification development for the pySDC problem classes
`GeneralizedFisher_1D_PETSc.py` and `nonlinear_ODE_1.py`.

The PETSc matrices are modelled as total functions `ℕ → ℕ → ℚ` (zero
default, as after `zeroEntries`), and the assembly loops as left folds of
per-row insertions over `List.range mx`, mirroring
`for i in range(xs, xe)` in the sequential layout `xs = 0`, `xe = mx`.
`setValueStencil` with the default PETSc insert mode overwrites an entry.
Real scalars are modelled as rationals.

The scalar Newton iteration of `nonlinear_ODE_1.solve_system` works on
IEEE floats; it is modelled over `Option ℚ`, where `none` plays the role
of NaN and propagates through arithmetic, and `np.sqrt` is an abstract
parameter `sqrtf : ℚ → Option ℚ` (returning `none` on negative input in
the intended reading).  All statements about the iteration hold for every
such `sqrtf`.
-/

namespace Fisher

/-- A PETSc matrix after `zeroEntries`: a total entry map with default 0. -/
def Mat : Type := ℕ → ℕ → ℚ

/-- Model of `A.zeroEntries()`: the all-zero entry map. -/
def zeroEntries : Mat := fun _ _ => 0

/-- Model of `A.setValueStencil(row, col, v)` in the default INSERT mode:
overwrite one entry, keep the rest. -/
def setValueStencil (A : Mat) (r c : ℕ) (v : ℚ) : Mat :=
  fun i j => if i = r ∧ j = c then v else A i j

/-- One row of `__get_A`: boundary rows get the 1.0 diagonal, interior rows
the three-point stencil `[1/dx², -2/dx², 1/dx²]`. -/
def get_A_row (mx : ℕ) (dx : ℚ) (A : Mat) (i : ℕ) : Mat :=
  if i = 0 ∨ i = mx - 1 then setValueStencil A i i 1
  else
    let diag : ℚ := -2 / dx ^ 2
    setValueStencil
      (setValueStencil (setValueStencil A i (i - 1) (1 / dx ^ 2)) i i diag)
      i (i + 1) (1 / dx ^ 2)

/-- Model of `petsc_fisher_multiimplicit.__get_A`. -/
def get_A (mx : ℕ) (dx : ℚ) : Mat :=
  (List.range mx).foldl (get_A_row mx dx) zeroEntries

/-- One row of `get_sys_mat`: boundary rows get the 1.0 diagonal, interior
rows `[-factor/dx², 1 + factor*2/dx², -factor/dx²]`. -/
def get_sys_mat_row (mx : ℕ) (dx factor : ℚ) (A : Mat) (i : ℕ) : Mat :=
  if i = 0 ∨ i = mx - 1 then setValueStencil A i i 1
  else
    let diag : ℚ := 1 + factor * 2 / dx ^ 2
    setValueStencil
      (setValueStencil (setValueStencil A i (i - 1) (-factor / dx ^ 2)) i i diag)
      i (i + 1) (-factor / dx ^ 2)

/-- Model of `petsc_fisher_multiimplicit.get_sys_mat`. -/
def get_sys_mat (mx : ℕ) (dx factor : ℚ) : Mat :=
  (List.range mx).foldl (get_sys_mat_row mx dx factor) zeroEntries

/-- One row of `Fisher_full.formJacobian` (the exponent `nu` is modelled as
a natural number). -/
def formJacobian_full_row (mx : ℕ) (factor dx lambda0 : ℚ) (nu : ℕ)
    (x : ℕ → ℚ) (P : Mat) (i : ℕ) : Mat :=
  if i = 0 ∨ i = mx - 1 then setValueStencil P i i 1
  else
    let diag : ℚ :=
      1 - factor * (-2 / dx ^ 2 + lambda0 ^ 2 * (1 - ((nu : ℚ) + 1) * x i ^ nu))
    setValueStencil
      (setValueStencil (setValueStencil P i (i - 1) (-factor / dx ^ 2)) i i diag)
      i (i + 1) (-factor / dx ^ 2)

/-- Model of `Fisher_full.formJacobian`: `P.zeroEntries()` followed by the
row loop. -/
def formJacobian_full (mx : ℕ) (factor dx lambda0 : ℚ) (nu : ℕ)
    (x : ℕ → ℚ) : Mat :=
  (List.range mx).foldl (formJacobian_full_row mx factor dx lambda0 nu x) zeroEntries

/-- One row of `Fisher_reaction.formJacobian`: boundary rows get the 1.0
diagonal, interior rows only the reaction diagonal. -/
def formJacobian_reaction_row (mx : ℕ) (factor lambda0 : ℚ) (nu : ℕ)
    (x : ℕ → ℚ) (P : Mat) (i : ℕ) : Mat :=
  if i = 0 ∨ i = mx - 1 then setValueStencil P i i 1
  else
    let diag : ℚ := 1 - factor * lambda0 ^ 2 * (1 - ((nu : ℚ) + 1) * x i ^ nu)
    setValueStencil P i i diag

/-- Model of `Fisher_reaction.formJacobian`: `P.zeroEntries()` followed by
the row loop. -/
def formJacobian_reaction (mx : ℕ) (factor lambda0 : ℚ) (nu : ℕ)
    (x : ℕ → ℚ) : Mat :=
  (List.range mx).foldl (formJacobian_reaction_row mx factor lambda0 nu x) zeroEntries

/-- Model of `Fisher_full.formFunction`, written per output index: boundary
indices copy the input, interior indices evaluate the discrete Fisher
residual. -/
def formFunction_full (mx : ℕ) (factor dx lambda0 : ℚ) (nu : ℕ)
    (x : ℕ → ℚ) (i : ℕ) : ℚ :=
  if i = 0 ∨ i = mx - 1 then x i
  else
    let u := x i
    let u_e := x (i + 1)
    let u_w := x (i - 1)
    let u_xx := (u_e - 2 * u + u_w) / dx ^ 2
    x i - factor * (u_xx + lambda0 ^ 2 * x i * (1 - x i ^ nu))

/-- Model of `Fisher_reaction.formFunction`, written per output index. -/
def formFunction_reaction (mx : ℕ) (factor lambda0 : ℚ) (nu : ℕ)
    (x : ℕ → ℚ) (i : ℕ) : ℚ :=
  if i = 0 ∨ i = mx - 1 then x i
  else x i - factor * lambda0 ^ 2 * x i * (1 - x i ^ nu)

/-- Model of `A.mult(u, f)`: matrix-vector product over the `mx` grid
columns. -/
def matVec (A : Mat) (mx : ℕ) (v : ℕ → ℚ) (i : ℕ) : ℚ :=
  ((List.range mx).map (fun j => A i j * v j)).sum

/-- The identity entry map. -/
def idMat : Mat := fun i j => if i = j then 1 else 0

/-- Modelled from the spec: the system matrix described by the words
`I - factor * LinearOperator`, taken literally entry by entry, with the
linear operator assembled by `__get_A`.  Used only to compare
`get_sys_mat` against the spec's description. -/
def sys_mat_spec (mx : ℕ) (dx factor : ℚ) : Mat :=
  fun i j => idMat i j - factor * get_A mx dx i j

/-- The boundary-pinned test vector `[0, 1, 1, 1, 0]` on the `N = 5` grid. -/
def fisherTestVec : ℕ → ℚ := fun i => if i = 1 ∨ i = 2 ∨ i = 3 then 1 else 0

/-- The test vector `[0, 0.5, 0.5, 0.5, 0]` on the `N = 5` grid. -/
def reactTestVec : ℕ → ℚ := fun i => if i = 1 ∨ i = 2 ∨ i = 3 then 1 / 2 else 0

/-- The four diagnostic counters of `petsc_fisher_multiimplicit`:
`ksp_itercount`, `ksp_ncalls`, `snes_itercount`, `snes_ncalls`. -/
structure DiagCounters where
  ksp_itercount : ℕ
  ksp_ncalls : ℕ
  snes_itercount : ℕ
  snes_ncalls : ℕ
deriving DecidableEq

/-- Counter effect of `solve_system_1`: the backend call
`ksp.getIterationNumber()` reports a non-negative count, modelled as the
input `reported : ℕ`; the method adds it to `ksp_itercount` and adds 1 to
`ksp_ncalls`, touching nothing else. -/
def solve_system_1_counters (s : DiagCounters) (reported : ℕ) : DiagCounters :=
  { s with
    ksp_itercount := s.ksp_itercount + reported
    ksp_ncalls := s.ksp_ncalls + 1 }

/-- Counter effect of `solve_system_2`: the backend call
`snes.getIterationNumber()` reports a non-negative count, modelled as the
input `reported : ℕ`; the method adds it to `snes_itercount` and adds 1 to
`snes_ncalls`, touching nothing else. -/
def solve_system_2_counters (s : DiagCounters) (reported : ℕ) : DiagCounters :=
  { s with
    snes_itercount := s.snes_itercount + reported
    snes_ncalls := s.snes_ncalls + 1 }

end Fisher

namespace NODE

/-- A floating-point scalar of the Newton iteration: `none` models NaN,
`some q` a finite value. -/
abbrev FV : Type := Option ℚ

/-- NaN-propagating addition. -/
def fvAdd : FV → FV → FV
  | some a, some b => some (a + b)
  | _, _ => none

/-- NaN-propagating subtraction. -/
def fvSub : FV → FV → FV
  | some a, some b => some (a - b)
  | _, _ => none

/-- NaN-propagating multiplication. -/
def fvMul : FV → FV → FV
  | some a, some b => some (a * b)
  | _, _ => none

/-- NaN-propagating division (finite division is exact rational division;
division by zero is not exercised by any statement below). -/
def fvDiv : FV → FV → FV
  | some a, some b => some (a / b)
  | _, _ => none

/-- Absolute value; for the one-component mesh of `nonlinear_ODE_1` this is
`np.linalg.norm(g, np.inf)`, and the norm of a NaN entry is NaN. -/
def fvAbs : FV → FV
  | some a => some (abs a)
  | none => none

/-- IEEE-style less-than: any comparison with NaN is false. -/
def fvLt : FV → FV → Bool
  | some a, some b => decide (a < b)
  | _, _ => false

/-- Model of `np.isnan`. -/
def fvIsNan : FV → Bool
  | some _ => false
  | none => true

/-- Application of the abstract `np.sqrt` to a possibly-NaN argument. -/
def fvSqrt (sqrtf : ℚ → FV) : FV → FV
  | some a => sqrtf a
  | none => none

/-- Model of `g = u - dt * np.sqrt(1 - u) - rhs`. -/
def g_residual (dt rhs : ℚ) (sqrtf : ℚ → FV) (u : FV) : FV :=
  fvSub (fvSub u (fvMul (some dt) (fvSqrt sqrtf (fvSub (some 1) u)))) (some rhs)

/-- Model of `dg = 1 - (-dt) / (2 * np.sqrt(1 - u))`. -/
def dg_jacobian (dt : ℚ) (sqrtf : ℚ → FV) (u : FV) : FV :=
  fvSub (some 1)
    (fvDiv (some (-dt)) (fvMul (some 2) (fvSqrt sqrtf (fvSub (some 1) u))))

/-- Model of the update `u -= 1.0 / dg * g`. -/
def newton_update (dt : ℚ) (sqrtf : ℚ → FV) (u g : FV) : FV :=
  fvSub u (fvMul (fvDiv (some 1) (dg_jacobian dt sqrtf u)) g)

/-- The `while n < self.newton_maxiter` loop of
`nonlinear_ODE_1.solve_system`, with `fuel = newton_maxiter - n` as the
structural termination measure; returns the final `(u, n, res)`. -/
def newtonLoop (newton_tol dt rhs : ℚ) (sqrtf : ℚ → FV) :
    ℕ → FV → ℕ → FV → FV × ℕ × FV
  | 0, u, n, res => (u, n, res)
  | fuel + 1, u, n, _res =>
    let g := g_residual dt rhs sqrtf u
    let res1 := fvAbs g
    if fvLt res1 (some newton_tol) || fvIsNan res1 then (u, n, res1)
    else
      newtonLoop newton_tol dt rhs sqrtf fuel
        (newton_update dt sqrtf u g) (n + 1) res1

/-- The loop of `solve_system` started as in the source: `n = 0`,
`res = 99`. -/
def newtonFinal (newton_maxiter : ℕ) (newton_tol rhs dt : ℚ) (u0 : FV)
    (sqrtf : ℚ → FV) : FV × ℕ × FV :=
  newtonLoop newton_tol dt rhs sqrtf newton_maxiter u0 0 (some 99)

/-- Observable outcome of one `solve_system` call: a normal return of the
iterate, the `ProblemError` raised on NaN, or the `ProblemError` raised on
iteration-cap exhaustion (carrying the reported count and residual). -/
inductive SolveRes where
  | retVal : FV → SolveRes
  | raiseNanError : ℕ → SolveRes
  | raiseNoConvergence : ℕ → FV → SolveRes
deriving DecidableEq

/-- Model of `nonlinear_ODE_1.solve_system` after the loop: the NaN check
(raise when `stop_at_nan`, warn otherwise — the Bool component records
whether the warning was logged), then the exhaustion check
`n == newton_maxiter`, then the normal return. -/
def solve_system (newton_maxiter : ℕ) (newton_tol : ℚ) (stop_at_nan : Bool)
    (rhs dt : ℚ) (u0 : FV) (sqrtf : ℚ → FV) : SolveRes × Bool :=
  let L := newtonFinal newton_maxiter newton_tol rhs dt u0 sqrtf
  if fvIsNan L.2.2 && stop_at_nan then (SolveRes.raiseNanError L.2.1, false)
  else if L.2.1 = newton_maxiter then
    (SolveRes.raiseNoConvergence L.2.1 L.2.2, fvIsNan L.2.2)
  else (SolveRes.retVal L.1, fvIsNan L.2.2)

/-- A concrete stand-in for `np.sqrt` used by the closed witnesses: NaN on
negative input (the statements it instantiates hold for every `sqrtf`). -/
def sqrtWitness : ℚ → FV := fun q => if q < 0 then none else some 1

end NODE

namespace Fisher

/-- A row-update function `f` touches only row `i` (`h1`) and reads only
row `i` of its input (`h2`); folding it over `List.range N` therefore
evaluates, at any row `r < N`, to a single update of the initial matrix. -/
theorem foldl_rowLocal (f : Mat → ℕ → Mat)
    (h1 : ∀ A i r c, r ≠ i → f A i r c = A r c)
    (h2 : ∀ A B i c, (∀ c', A i c' = B i c') → f A i i c = f B i i c)
    (M0 : Mat) (N r c : ℕ) :
    (List.range N).foldl f M0 r c = if r < N then f M0 r r c else M0 r c := by
  induction N generalizing c with
  | zero => simp [List.range_zero]
  | succ n ih =>
    rw [List.range_succ, List.foldl_append, List.foldl_cons, List.foldl_nil]
    by_cases hr : r = n
    · subst hr
      have hrow : ∀ c', (List.range r).foldl f M0 r c' = M0 r c' := by
        intro c'
        rw [ih c']
        simp
      rw [h2 _ _ _ _ hrow]
      simp
    · rw [h1 _ _ _ _ hr, ih c]
      by_cases hlt : r < n
      · rw [if_pos hlt, if_pos (Nat.lt_succ_of_lt hlt)]
      · have hlt2 : ¬ r < n + 1 := by omega
        rw [if_neg hlt, if_neg hlt2]

/-- Entry of a boundary-row insertion. -/
theorem boundary_insert_entry (A : Mat) (i r c : ℕ) :
    setValueStencil A i i 1 r c = if r = i ∧ c = i then 1 else A r c := rfl

/-- Entry of the interior three-insertion chain shared by the assembly
loops: later insertions shadow earlier ones at the same position. -/
theorem chain_entry (A : Mat) (i : ℕ) (vlo vd vhi : ℚ) (r c : ℕ) :
    setValueStencil (setValueStencil (setValueStencil A i (i - 1) vlo) i i vd)
      i (i + 1) vhi r c =
    if r = i then
      (if c = i + 1 then vhi else if c = i then vd
       else if c = i - 1 then vlo else A r c)
    else A r c := by
  by_cases hr : r = i
  · subst hr
    simp only [setValueStencil, if_pos rfl]
    by_cases h1 : c = r + 1
    · simp [h1]
    · by_cases h2 : c = r
      · simp [h1, h2]
      · by_cases h3 : c = r - 1 <;> simp [h1, h2, h3]
  · simp [setValueStencil, hr]

theorem get_A_entry (mx : ℕ) (dx : ℚ) (r c : ℕ) (hr : r < mx) :
    get_A mx dx r c =
      if r = 0 ∨ r = mx - 1 then (if c = r then 1 else 0)
      else if c = r + 1 then 1 / dx ^ 2
      else if c = r then -2 / dx ^ 2
      else if c = r - 1 then 1 / dx ^ 2
      else 0 := by
  have h1 : ∀ A i r c, r ≠ i → get_A_row mx dx A i r c = A r c := by
    intro A i r' c' hne
    by_cases hb : i = 0 ∨ i = mx - 1 <;>
      simp [get_A_row, hb, boundary_insert_entry, chain_entry, hne]
  have h2 : ∀ A B i c, (∀ c', A i c' = B i c') →
      get_A_row mx dx A i i c = get_A_row mx dx B i i c := by
    intro A B i c' hrow
    by_cases hb : i = 0 ∨ i = mx - 1 <;>
      simp [get_A_row, hb, boundary_insert_entry, chain_entry, hrow c']
  rw [get_A, foldl_rowLocal _ h1 h2, if_pos hr]
  by_cases hb : r = 0 ∨ r = mx - 1 <;>
    simp [get_A_row, hb, boundary_insert_entry, chain_entry, zeroEntries]

theorem get_sys_mat_entry (mx : ℕ) (dx factor : ℚ) (r c : ℕ) (hr : r < mx) :
    get_sys_mat mx dx factor r c =
      if r = 0 ∨ r = mx - 1 then (if c = r then 1 else 0)
      else if c = r + 1 then -factor / dx ^ 2
      else if c = r then 1 + factor * 2 / dx ^ 2
      else if c = r - 1 then -factor / dx ^ 2
      else 0 := by
  have h1 : ∀ A i r c, r ≠ i → get_sys_mat_row mx dx factor A i r c = A r c := by
    intro A i r' c' hne
    by_cases hb : i = 0 ∨ i = mx - 1 <;>
      simp [get_sys_mat_row, hb, boundary_insert_entry, chain_entry, hne]
  have h2 : ∀ A B i c, (∀ c', A i c' = B i c') →
      get_sys_mat_row mx dx factor A i i c = get_sys_mat_row mx dx factor B i i c := by
    intro A B i c' hrow
    by_cases hb : i = 0 ∨ i = mx - 1 <;>
      simp [get_sys_mat_row, hb, boundary_insert_entry, chain_entry, hrow c']
  rw [get_sys_mat, foldl_rowLocal _ h1 h2, if_pos hr]
  by_cases hb : r = 0 ∨ r = mx - 1 <;>
    simp [get_sys_mat_row, hb, boundary_insert_entry, chain_entry, zeroEntries]

theorem formJacobian_full_entry (mx : ℕ) (factor dx lambda0 : ℚ) (nu : ℕ)
    (x : ℕ → ℚ) (r c : ℕ) (hr : r < mx) :
    formJacobian_full mx factor dx lambda0 nu x r c =
      if r = 0 ∨ r = mx - 1 then (if c = r then 1 else 0)
      else if c = r + 1 then -factor / dx ^ 2
      else if c = r then
        1 - factor * (-2 / dx ^ 2 + lambda0 ^ 2 * (1 - ((nu : ℚ) + 1) * x r ^ nu))
      else if c = r - 1 then -factor / dx ^ 2
      else 0 := by
  have h1 : ∀ A i r c, r ≠ i →
      formJacobian_full_row mx factor dx lambda0 nu x A i r c = A r c := by
    intro A i r' c' hne
    by_cases hb : i = 0 ∨ i = mx - 1 <;>
      simp [formJacobian_full_row, hb, boundary_insert_entry, chain_entry, hne]
  have h2 : ∀ A B i c, (∀ c', A i c' = B i c') →
      formJacobian_full_row mx factor dx lambda0 nu x A i i c =
      formJacobian_full_row mx factor dx lambda0 nu x B i i c := by
    intro A B i c' hrow
    by_cases hb : i = 0 ∨ i = mx - 1 <;>
      simp [formJacobian_full_row, hb, boundary_insert_entry, chain_entry, hrow c']
  rw [formJacobian_full, foldl_rowLocal _ h1 h2, if_pos hr]
  by_cases hb : r = 0 ∨ r = mx - 1 <;>
    simp [formJacobian_full_row, hb, boundary_insert_entry, chain_entry, zeroEntries]

theorem formJacobian_reaction_entry (mx : ℕ) (factor lambda0 : ℚ) (nu : ℕ)
    (x : ℕ → ℚ) (r c : ℕ) (hr : r < mx) :
    formJacobian_reaction mx factor lambda0 nu x r c =
      if r = 0 ∨ r = mx - 1 then (if c = r then 1 else 0)
      else if c = r then
        1 - factor * lambda0 ^ 2 * (1 - ((nu : ℚ) + 1) * x r ^ nu)
      else 0 := by
  have h1 : ∀ A i r c, r ≠ i →
      formJacobian_reaction_row mx factor lambda0 nu x A i r c = A r c := by
    intro A i r' c' hne
    by_cases hb : i = 0 ∨ i = mx - 1 <;>
      simp [formJacobian_reaction_row, hb, boundary_insert_entry, hne, setValueStencil]
  have h2 : ∀ A B i c, (∀ c', A i c' = B i c') →
      formJacobian_reaction_row mx factor lambda0 nu x A i i c =
      formJacobian_reaction_row mx factor lambda0 nu x B i i c := by
    intro A B i c' hrow
    by_cases hb : i = 0 ∨ i = mx - 1 <;>
      simp [formJacobian_reaction_row, hb, boundary_insert_entry, setValueStencil, hrow c']
  rw [formJacobian_reaction, foldl_rowLocal _ h1 h2, if_pos hr]
  by_cases hb : r = 0 ∨ r = mx - 1 <;>
    simp [formJacobian_reaction_row, hb, boundary_insert_entry, setValueStencil, zeroEntries]

/-- C1 counterexample: at `N = 2`, `dx = 1`, `factor = 1`, entry (0,0) of
`get_sys_mat` is 1, while the matrix `I - factor * A` of the claim has
`1 - 1 = 0` there, because row 0 of `A` is an identity row. -/
theorem C1_counterexample :
    get_sys_mat 2 1 1 0 0 = 1 ∧ sys_mat_spec 2 1 1 0 0 = 0 ∧
    ¬ get_sys_mat 2 1 1 0 0 = sys_mat_spec 2 1 1 0 0 := by
  refine ⟨?_, ?_, ?_⟩ <;>
    norm_num [get_sys_mat, get_sys_mat_row, sys_mat_spec, idMat, get_A,
      get_A_row, setValueStencil, zeroEntries, List.range_succ]

/-- C1 (amended): every interior row of `get_sys_mat(factor)` equals the
corresponding row of `I - factor * A`; the two boundary rows 0 and `N-1`
are instead exactly identity rows (not `(1-factor)` rows). -/
theorem C1_get_sys_mat_amended (mx : ℕ) (dx factor : ℚ) (r c : ℕ)
    (_hN : 2 ≤ mx) (hrmx : r < mx) :
    ((0 < r ∧ r < mx - 1) →
      get_sys_mat mx dx factor r c = sys_mat_spec mx dx factor r c) ∧
    ((r = 0 ∨ r = mx - 1) → get_sys_mat mx dx factor r c = idMat r c) := by
  constructor
  · rintro ⟨h0, h1⟩
    have hb : ¬(r = 0 ∨ r = mx - 1) := by omega
    rw [get_sys_mat_entry mx dx factor r c hrmx, if_neg hb]
    simp only [sys_mat_spec]
    rw [get_A_entry mx dx r c hrmx, if_neg hb]
    split_ifs with hc1 hc2 hc3
    · have h0' : idMat r c = 0 := by simp only [idMat]; rw [if_neg (by omega)]
      rw [h0']; ring
    · have h0' : idMat r c = 1 := by simp only [idMat]; rw [if_pos (by omega)]
      rw [h0']; ring
    · have h0' : idMat r c = 0 := by simp only [idMat]; rw [if_neg (by omega)]
      rw [h0']; ring
    · have h0' : idMat r c = 0 := by simp only [idMat]; rw [if_neg (by omega)]
      rw [h0']; ring
  · intro hb
    rw [get_sys_mat_entry mx dx factor r c hrmx, if_pos hb]
    by_cases hc : c = r
    · subst hc; simp [idMat]
    · rw [if_neg hc]; simp only [idMat]; rw [if_neg (by omega)]

/-- C1 witness: the amended statement at `N = 3`, `dx = 1`, `factor = 2`,
row 1 (interior) and row 0 (boundary). -/
theorem C1_get_sys_mat_amended_witness :
    ((0 < 1 ∧ 1 < 3 - 1) → get_sys_mat 3 1 2 1 1 = sys_mat_spec 3 1 2 1 1) ∧
    ((1 = 0 ∨ 1 = 3 - 1) → get_sys_mat 3 1 2 1 1 = idMat 1 1) :=
  C1_get_sys_mat_amended 3 1 2 1 1 (by decide) (by decide)

/-- C2 counterexample: on the `N = 5` grid with `dx = 1/4`, row 1 of
`A @ [0,1,1,1,0]` equals `-16 = -1/dx²`, not the claimed `-32 = -2/dx²`. -/
theorem C2_counterexample :
    matVec (get_A 5 (1 / 4)) 5 fisherTestVec 1 = -16 ∧ ¬ ((-16 : ℚ) = -32) := by
  refine ⟨?_, by norm_num⟩
  norm_num [matVec, get_A, get_A_row, setValueStencil, zeroEntries,
    fisherTestVec, List.range_succ]

/-- C2 (amended): on the `N = 5` grid on `[0,1]` with `dx = 1/4`, the
assembled operator `A` times `[0,1,1,1,0]` is `[0, -1/dx², 0, -1/dx², 0]`,
i.e. `[0, -16, 0, -16, 0]`. -/
theorem C2_matVec_amended :
    matVec (get_A 5 (1 / 4)) 5 fisherTestVec 0 = 0 ∧
    matVec (get_A 5 (1 / 4)) 5 fisherTestVec 1 = -16 ∧
    matVec (get_A 5 (1 / 4)) 5 fisherTestVec 2 = 0 ∧
    matVec (get_A 5 (1 / 4)) 5 fisherTestVec 3 = -16 ∧
    matVec (get_A 5 (1 / 4)) 5 fisherTestVec 4 = 0 := by
  refine ⟨?_, ?_, ?_, ?_, ?_⟩ <;>
    norm_num [matVec, get_A, get_A_row, setValueStencil, zeroEntries,
      fisherTestVec, List.range_succ]

/-- C3: `Fisher_full.formFunction` writes the claimed residual at every
interior index and copies the input at the two boundary indices. -/
theorem C3_formFunction_full (mx : ℕ) (factor dx lambda0 : ℚ) (nu : ℕ)
    (x : ℕ → ℚ) (i : ℕ) (_hN : 2 ≤ mx) :
    ((0 < i ∧ i < mx - 1) →
      formFunction_full mx factor dx lambda0 nu x i =
        x i - factor * ((x (i + 1) - 2 * x i + x (i - 1)) / dx ^ 2 +
          lambda0 ^ 2 * x i * (1 - x i ^ nu))) ∧
    ((i = 0 ∨ i = mx - 1) → formFunction_full mx factor dx lambda0 nu x i = x i) := by
  refine ⟨?_, ?_⟩
  · rintro ⟨h0, h1⟩
    have hb : ¬(i = 0 ∨ i = mx - 1) := by omega
    simp only [formFunction_full, if_neg hb]
  · intro hb
    simp only [formFunction_full, if_pos hb]

/-- C3 witness: the interior index 1 and the boundary index 0 on the
`N = 5` grid with concrete coefficients. -/
theorem C3_formFunction_full_witness :
    ((0 < 1 ∧ 1 < 5 - 1) →
      formFunction_full 5 (1 / 10) (1 / 4) 1 2 fisherTestVec 1 =
        fisherTestVec 1 - (1 / 10) *
          ((fisherTestVec 2 - 2 * fisherTestVec 1 + fisherTestVec 0) / (1 / 4) ^ 2 +
            1 ^ 2 * fisherTestVec 1 * (1 - fisherTestVec 1 ^ 2))) ∧
    ((1 = 0 ∨ 1 = 5 - 1) →
      formFunction_full 5 (1 / 10) (1 / 4) 1 2 fisherTestVec 1 = fisherTestVec 1) :=
  C3_formFunction_full 5 (1 / 10) (1 / 4) 1 2 fisherTestVec 1 (by decide)

/-- C4: the Jacobian of `Fisher_full` has, on every interior row, the
claimed diagonal, the `-factor/dx²` sub- and super-diagonal entries and no
other nonzeros; boundary rows are exactly identity rows. -/
theorem C4_formJacobian_full (mx : ℕ) (factor dx lambda0 : ℚ) (nu : ℕ)
    (x : ℕ → ℚ) (r c : ℕ) (hrmx : r < mx) :
    ((0 < r ∧ r < mx - 1) →
      formJacobian_full mx factor dx lambda0 nu x r c =
        (if c = r then
          1 - factor * (-2 / dx ^ 2 + lambda0 ^ 2 * (1 - ((nu : ℚ) + 1) * x r ^ nu))
         else if c = r - 1 ∨ c = r + 1 then -factor / dx ^ 2
         else 0)) ∧
    ((r = 0 ∨ r = mx - 1) →
      formJacobian_full mx factor dx lambda0 nu x r c = idMat r c) := by
  constructor
  · rintro ⟨h0, h1⟩
    have hb : ¬(r = 0 ∨ r = mx - 1) := by omega
    rw [formJacobian_full_entry mx factor dx lambda0 nu x r c hrmx, if_neg hb]
    split_ifs <;> first | rfl | (exfalso; omega)
  · intro hb
    rw [formJacobian_full_entry mx factor dx lambda0 nu x r c hrmx, if_pos hb]
    by_cases hc : c = r
    · subst hc; simp [idMat]
    · rw [if_neg hc]; simp only [idMat]; rw [if_neg (by omega)]

/-- C4 witness: interior row 2 at the sub-diagonal column 1 on the `N = 5`
grid with concrete coefficients. -/
theorem C4_formJacobian_full_witness :
    ((0 < 2 ∧ 2 < 5 - 1) →
      formJacobian_full 5 (1 / 10) (1 / 4) 1 2 reactTestVec 2 1 =
        (if 1 = 2 then
          1 - (1 / 10) * (-2 / (1 / 4 : ℚ) ^ 2 +
            1 ^ 2 * (1 - ((2 : ℚ) + 1) * reactTestVec 2 ^ 2))
         else if 1 = 2 - 1 ∨ 1 = 2 + 1 then -(1 / 10) / (1 / 4 : ℚ) ^ 2
         else 0)) ∧
    ((2 = 0 ∨ 2 = 5 - 1) →
      formJacobian_full 5 (1 / 10) (1 / 4) 1 2 reactTestVec 2 1 = idMat 2 1) :=
  C4_formJacobian_full 5 (1 / 10) (1 / 4) 1 2 reactTestVec 2 1 (by decide)

/-- C5: `Fisher_reaction.formFunction` writes the reaction-only residual at
interior indices and copies the input at the boundaries, and
`Fisher_reaction.formJacobian` is diagonal with the claimed interior
diagonal and identity boundary rows. -/
theorem C5_reaction_provider (mx : ℕ) (factor lambda0 : ℚ) (nu : ℕ)
    (x : ℕ → ℚ) (i c : ℕ) (himx : i < mx) :
    ((0 < i ∧ i < mx - 1) →
      formFunction_reaction mx factor lambda0 nu x i =
        x i - factor * lambda0 ^ 2 * x i * (1 - x i ^ nu) ∧
      formJacobian_reaction mx factor lambda0 nu x i c =
        (if c = i then 1 - factor * lambda0 ^ 2 * (1 - ((nu : ℚ) + 1) * x i ^ nu)
         else 0)) ∧
    ((i = 0 ∨ i = mx - 1) →
      formFunction_reaction mx factor lambda0 nu x i = x i ∧
      formJacobian_reaction mx factor lambda0 nu x i c = idMat i c) := by
  constructor
  · rintro ⟨h0, h1⟩
    have hb : ¬(i = 0 ∨ i = mx - 1) := by omega
    refine ⟨by simp only [formFunction_reaction, if_neg hb], ?_⟩
    rw [formJacobian_reaction_entry mx factor lambda0 nu x i c himx, if_neg hb]
  · intro hb
    refine ⟨by simp only [formFunction_reaction, if_pos hb], ?_⟩
    rw [formJacobian_reaction_entry mx factor lambda0 nu x i c himx, if_pos hb]
    by_cases hc : c = i
    · subst hc; simp [idMat]
    · rw [if_neg hc]; simp only [idMat]; rw [if_neg (by omega)]

/-- C5 witness: at `factor = 1/10`, `lambda0 = 1`, `nu = 2` and
`x = [0, 1/2, 1/2, 1/2, 0]`, the interior index 1; the extra conjunct
evaluates the interior Jacobian diagonal to `39/40 = 0.975`. -/
theorem C5_reaction_provider_witness :
    (((0 < 1 ∧ 1 < 5 - 1) →
      formFunction_reaction 5 (1 / 10) 1 2 reactTestVec 1 =
        reactTestVec 1 - (1 / 10) * 1 ^ 2 * reactTestVec 1 * (1 - reactTestVec 1 ^ 2) ∧
      formJacobian_reaction 5 (1 / 10) 1 2 reactTestVec 1 1 =
        (if 1 = 1 then 1 - (1 / 10) * 1 ^ 2 * (1 - ((2 : ℚ) + 1) * reactTestVec 1 ^ 2)
         else 0)) ∧
    ((1 = 0 ∨ 1 = 5 - 1) →
      formFunction_reaction 5 (1 / 10) 1 2 reactTestVec 1 = reactTestVec 1 ∧
      formJacobian_reaction 5 (1 / 10) 1 2 reactTestVec 1 1 = idMat 1 1)) ∧
    formJacobian_reaction 5 (1 / 10) 1 2 reactTestVec 1 1 = 39 / 40 :=
  ⟨C5_reaction_provider 5 (1 / 10) 1 2 reactTestVec 1 1 (by decide),
    by norm_num [formJacobian_reaction, formJacobian_reaction_row,
      setValueStencil, zeroEntries, reactTestVec, List.range_succ]⟩

/-- C8: for every matrix assembled by the core — `__get_A`,
`get_sys_mat(factor)`, `Fisher_full.formJacobian` and
`Fisher_reaction.formJacobian` — rows 0 and `N-1` are exactly the identity
row, for every `factor`, `lambda0`, `nu` and input vector `x`. -/
theorem C8_boundary_rows_identity (mx : ℕ) (dx factor lambda0 : ℚ) (nu : ℕ)
    (x : ℕ → ℚ) (r c : ℕ) (hN : 2 ≤ mx) (hr : r = 0 ∨ r = mx - 1) :
    get_A mx dx r c = idMat r c ∧
    get_sys_mat mx dx factor r c = idMat r c ∧
    formJacobian_full mx factor dx lambda0 nu x r c = idMat r c ∧
    formJacobian_reaction mx factor lambda0 nu x r c = idMat r c := by
  have hrmx : r < mx := by omega
  rw [get_A_entry mx dx r c hrmx, get_sys_mat_entry mx dx factor r c hrmx,
    formJacobian_full_entry mx factor dx lambda0 nu x r c hrmx,
    formJacobian_reaction_entry mx factor lambda0 nu x r c hrmx,
    if_pos hr, if_pos hr, if_pos hr, if_pos hr]
  have key : (if c = r then (1 : ℚ) else 0) = idMat r c := by
    by_cases hc : c = r
    · subst hc; simp [idMat]
    · rw [if_neg hc]; simp only [idMat]; rw [if_neg (by omega)]
  exact ⟨key, key, key, key⟩

/-- C8 witness: the `N = 5` grid at the boundary row `N - 1 = 4`. -/
theorem C8_boundary_rows_identity_witness :
    get_A 5 (1 / 4) 4 3 = idMat 4 3 ∧
    get_sys_mat 5 (1 / 4) (1 / 2) 4 3 = idMat 4 3 ∧
    formJacobian_full 5 (1 / 2) (1 / 4) 1 2 reactTestVec 4 3 = idMat 4 3 ∧
    formJacobian_reaction 5 (1 / 2) 1 2 reactTestVec 4 3 = idMat 4 3 :=
  C8_boundary_rows_identity 5 (1 / 4) (1 / 2) 1 2 reactTestVec 4 3 (by decide)
    (by decide)

/-- C9: `solve_system_1` adds exactly 1 to `ksp_ncalls` and the reported
backend count to `ksp_itercount`; `solve_system_2` adds exactly 1 to
`snes_ncalls` and the reported count to `snes_itercount`; neither call
decreases or resets any of the four counters. -/
theorem C9_counters_accumulate (s : DiagCounters) (r1 r2 : ℕ) :
    (solve_system_1_counters s r1).ksp_ncalls = s.ksp_ncalls + 1 ∧
    (solve_system_1_counters s r1).ksp_itercount = s.ksp_itercount + r1 ∧
    (solve_system_1_counters s r1).snes_itercount = s.snes_itercount ∧
    (solve_system_1_counters s r1).snes_ncalls = s.snes_ncalls ∧
    (solve_system_2_counters s r2).snes_ncalls = s.snes_ncalls + 1 ∧
    (solve_system_2_counters s r2).snes_itercount = s.snes_itercount + r2 ∧
    (solve_system_2_counters s r2).ksp_itercount = s.ksp_itercount ∧
    (solve_system_2_counters s r2).ksp_ncalls = s.ksp_ncalls ∧
    s.ksp_itercount ≤ (solve_system_1_counters s r1).ksp_itercount ∧
    s.ksp_ncalls ≤ (solve_system_1_counters s r1).ksp_ncalls ∧
    s.snes_itercount ≤ (solve_system_2_counters s r2).snes_itercount ∧
    s.snes_ncalls ≤ (solve_system_2_counters s r2).snes_ncalls := by
  refine ⟨rfl, rfl, rfl, rfl, rfl, rfl, rfl, rfl, ?_, ?_, ?_, ?_⟩ <;>
    simp [solve_system_1_counters, solve_system_2_counters]

end Fisher

namespace NODE

/-- The loop never decreases `n` and advances it by at most `fuel`. -/
theorem newtonLoop_n_bounds (newton_tol dt rhs : ℚ) (sqrtf : ℚ → FV)
    (fuel : ℕ) (u res : FV) (n : ℕ) :
    n ≤ (newtonLoop newton_tol dt rhs sqrtf fuel u n res).2.1 ∧
    (newtonLoop newton_tol dt rhs sqrtf fuel u n res).2.1 ≤ n + fuel := by
  induction fuel generalizing u res n with
  | zero => simp [newtonLoop]
  | succ k ih =>
    simp only [newtonLoop]
    by_cases hc : (fvLt (fvAbs (g_residual dt rhs sqrtf u)) (some newton_tol)
        || fvIsNan (fvAbs (g_residual dt rhs sqrtf u))) = true
    · simp only [hc, if_true]
      omega
    · simp only [hc, if_false, Bool.false_eq_true]
      have h2 := ih (newton_update dt sqrtf u (g_residual dt rhs sqrtf u))
        (fvAbs (g_residual dt rhs sqrtf u)) (n + 1)
      omega

/-- If the loop consumed all its fuel (final `n` = start `n` + `fuel`,
`fuel ≥ 1`), the stored residual is the one computed in the last executed
iteration, so it is neither below tolerance nor NaN. -/
theorem newtonLoop_exhaust (newton_tol dt rhs : ℚ) (sqrtf : ℚ → FV) :
    ∀ fuel u res n, 1 ≤ fuel →
    (newtonLoop newton_tol dt rhs sqrtf fuel u n res).2.1 = n + fuel →
    fvLt (newtonLoop newton_tol dt rhs sqrtf fuel u n res).2.2 (some newton_tol) = false ∧
    fvIsNan (newtonLoop newton_tol dt rhs sqrtf fuel u n res).2.2 = false := by
  intro fuel
  induction fuel with
  | zero => intro u res n h; omega
  | succ k ih =>
    intro u res n _ hn
    simp only [newtonLoop] at hn ⊢
    by_cases hc : (fvLt (fvAbs (g_residual dt rhs sqrtf u)) (some newton_tol)
        || fvIsNan (fvAbs (g_residual dt rhs sqrtf u))) = true
    · rw [if_pos hc] at hn
      simp at hn
    · rw [if_neg hc] at hn ⊢
      rcases Nat.eq_zero_or_pos k with hk | hk
      · subst hk
        simp only [newtonLoop]
        simp only [Bool.or_eq_true, not_or, Bool.not_eq_true] at hc
        exact ⟨hc.1, hc.2⟩
      · exact ih _ _ _ hk (by omega)

/-- A NaN residual can only be stored by the in-loop break, which fires
with `n` strictly below the cap (given a non-NaN starting `res`). -/
theorem newtonLoop_nan_stops_early (newton_tol dt rhs : ℚ) (sqrtf : ℚ → FV)
    (fuel : ℕ) (u res : FV) (n : ℕ) (hres : fvIsNan res = false)
    (hnan : fvIsNan (newtonLoop newton_tol dt rhs sqrtf fuel u n res).2.2 = true) :
    (newtonLoop newton_tol dt rhs sqrtf fuel u n res).2.1 < n + fuel := by
  rcases Nat.eq_zero_or_pos fuel with h0 | h1
  · subst h0
    simp only [newtonLoop] at hnan
    rw [hres] at hnan
    exact absurd hnan (by simp)
  · by_contra hge
    have hb := newtonLoop_n_bounds newton_tol dt rhs sqrtf fuel u res n
    have heq : (newtonLoop newton_tol dt rhs sqrtf fuel u n res).2.1 = n + fuel := by
      omega
    have hx := (newtonLoop_exhaust newton_tol dt rhs sqrtf fuel u res n h1 heq).2
    rw [hx] at hnan
    exact absurd hnan (by simp)

/-- A value that compares below something is not NaN. -/
theorem fvLt_true_not_nan (a b : FV) (h : fvLt a b = true) : fvIsNan a = false := by
  cases a <;> cases b <;> simp_all [fvLt, fvIsNan]

/-- The source Jacobian `1 - (-dt) / (2*sqrt(1-u))` equals the spec form
`1 + dt / (2*sqrt(1-u))`, NaN cases included. -/
theorem dg_jacobian_plus_form (dt : ℚ) (sqrtf : ℚ → FV) (u : FV) :
    dg_jacobian dt sqrtf u =
      fvAdd (some 1) (fvDiv (some dt) (fvMul (some 2) (fvSqrt sqrtf (fvSub (some 1) u)))) := by
  simp only [dg_jacobian]
  cases hX : fvMul (some 2) (fvSqrt sqrtf (fvSub (some 1) u)) with
  | none => simp [fvDiv, fvSub, fvAdd]
  | some b =>
    simp only [fvDiv, fvSub, fvAdd]
    congr 1
    ring

/-- The source update `u - 1.0/dg * g` equals the spec form `u - g/dg`,
NaN cases included. -/
theorem newton_update_div_form (dt : ℚ) (sqrtf : ℚ → FV) (u g : FV) :
    newton_update dt sqrtf u g = fvSub u (fvDiv g (dg_jacobian dt sqrtf u)) := by
  simp only [newton_update]
  cases hD : dg_jacobian dt sqrtf u with
  | none => cases g <;> cases u <;> simp [fvMul, fvDiv, fvSub]
  | some d =>
    cases g with
    | none => cases u <;> simp [fvMul, fvDiv, fvSub]
    | some gv =>
      cases u with
      | none => simp [fvMul, fvDiv, fvSub]
      | some uv =>
        simp only [fvMul, fvDiv, fvSub]
        congr 1
        ring

/-- C6: in every iteration of the loop the residual is
`g(u) = u - dt*sqrt(1-u) - rhs`; if its norm is below `newton_tol` or is
NaN the loop stops with the current iterate, and otherwise the Jacobian
diagonal equals `1 + dt/(2*sqrt(1-u))`, the iterate becomes `u - g/dg`,
and the iteration count grows by one. -/
theorem C6_newton_iteration (newton_tol dt rhs : ℚ) (sqrtf : ℚ → FV)
    (fuel n : ℕ) (u res : FV) :
    (fvLt (fvAbs (g_residual dt rhs sqrtf u)) (some newton_tol) = true →
      newtonLoop newton_tol dt rhs sqrtf (fuel + 1) u n res =
        (u, n, fvAbs (g_residual dt rhs sqrtf u))) ∧
    (fvIsNan (fvAbs (g_residual dt rhs sqrtf u)) = true →
      newtonLoop newton_tol dt rhs sqrtf (fuel + 1) u n res =
        (u, n, fvAbs (g_residual dt rhs sqrtf u))) ∧
    (fvLt (fvAbs (g_residual dt rhs sqrtf u)) (some newton_tol) = false →
      fvIsNan (fvAbs (g_residual dt rhs sqrtf u)) = false →
      dg_jacobian dt sqrtf u =
        fvAdd (some 1)
          (fvDiv (some dt) (fvMul (some 2) (fvSqrt sqrtf (fvSub (some 1) u)))) ∧
      newton_update dt sqrtf u (g_residual dt rhs sqrtf u) =
        fvSub u (fvDiv (g_residual dt rhs sqrtf u) (dg_jacobian dt sqrtf u)) ∧
      newtonLoop newton_tol dt rhs sqrtf (fuel + 1) u n res =
        newtonLoop newton_tol dt rhs sqrtf fuel
          (newton_update dt sqrtf u (g_residual dt rhs sqrtf u)) (n + 1)
          (fvAbs (g_residual dt rhs sqrtf u))) := by
  refine ⟨?_, ?_, ?_⟩
  · intro hlt
    simp [newtonLoop, hlt]
  · intro hnan
    simp [newtonLoop, hnan]
  · intro hlt hnan
    exact ⟨dg_jacobian_plus_form dt sqrtf u,
      newton_update_div_form dt sqrtf u _,
      by simp [newtonLoop, hlt, hnan]⟩

/-- C6 witness: one loop step at `tol = 1`, `dt = 1`, `rhs = 0`,
`u = some 5` (so `1 - u < 0` and the square root is NaN), started with
`n = 0`, `res = 99`. -/
theorem C6_newton_iteration_witness :
    (fvLt (fvAbs (g_residual 1 0 sqrtWitness (some 5))) (some 1) = true →
      newtonLoop 1 1 0 sqrtWitness (0 + 1) (some 5) 0 (some 99) =
        (some 5, 0, fvAbs (g_residual 1 0 sqrtWitness (some 5)))) ∧
    (fvIsNan (fvAbs (g_residual 1 0 sqrtWitness (some 5))) = true →
      newtonLoop 1 1 0 sqrtWitness (0 + 1) (some 5) 0 (some 99) =
        (some 5, 0, fvAbs (g_residual 1 0 sqrtWitness (some 5)))) ∧
    (fvLt (fvAbs (g_residual 1 0 sqrtWitness (some 5))) (some 1) = false →
      fvIsNan (fvAbs (g_residual 1 0 sqrtWitness (some 5))) = false →
      dg_jacobian 1 sqrtWitness (some 5) =
        fvAdd (some 1)
          (fvDiv (some 1) (fvMul (some 2) (fvSqrt sqrtWitness (fvSub (some 1) (some 5))))) ∧
      newton_update 1 sqrtWitness (some 5) (g_residual 1 0 sqrtWitness (some 5)) =
        fvSub (some 5)
          (fvDiv (g_residual 1 0 sqrtWitness (some 5)) (dg_jacobian 1 sqrtWitness (some 5))) ∧
      newtonLoop 1 1 0 sqrtWitness (0 + 1) (some 5) 0 (some 99) =
        newtonLoop 1 1 0 sqrtWitness 0
          (newton_update 1 sqrtWitness (some 5) (g_residual 1 0 sqrtWitness (some 5))) (0 + 1)
          (fvAbs (g_residual 1 0 sqrtWitness (some 5)))) :=
  C6_newton_iteration 1 1 0 sqrtWitness 0 0 (some 5) (some 99)

/-- C7: with a positive iteration cap, `solve_system` ends in exactly one of
three ways — a NaN residual raises `ProblemError` when `stop_at_nan` and
otherwise returns the last iterate with a logged warning; exhausting the
cap always raises `ProblemError` carrying the last residual; a residual
below `newton_tol` returns the iterate normally. -/
theorem C7_solve_system_termination (newton_maxiter : ℕ) (newton_tol : ℚ)
    (stop_at_nan : Bool) (rhs dt : ℚ) (u0 : FV) (sqrtf : ℚ → FV)
    (hmax : 1 ≤ newton_maxiter) :
    (fvIsNan (newtonFinal newton_maxiter newton_tol rhs dt u0 sqrtf).2.2 = true →
      (stop_at_nan = true →
        solve_system newton_maxiter newton_tol stop_at_nan rhs dt u0 sqrtf =
          (SolveRes.raiseNanError
            (newtonFinal newton_maxiter newton_tol rhs dt u0 sqrtf).2.1, false)) ∧
      (stop_at_nan = false →
        solve_system newton_maxiter newton_tol stop_at_nan rhs dt u0 sqrtf =
          (SolveRes.retVal
            (newtonFinal newton_maxiter newton_tol rhs dt u0 sqrtf).1, true))) ∧
    ((newtonFinal newton_maxiter newton_tol rhs dt u0 sqrtf).2.1 = newton_maxiter →
      solve_system newton_maxiter newton_tol stop_at_nan rhs dt u0 sqrtf =
        (SolveRes.raiseNoConvergence newton_maxiter
          (newtonFinal newton_maxiter newton_tol rhs dt u0 sqrtf).2.2, false)) ∧
    (fvLt (newtonFinal newton_maxiter newton_tol rhs dt u0 sqrtf).2.2
        (some newton_tol) = true →
      solve_system newton_maxiter newton_tol stop_at_nan rhs dt u0 sqrtf =
        (SolveRes.retVal
          (newtonFinal newton_maxiter newton_tol rhs dt u0 sqrtf).1, false)) := by
  have hunf : newtonFinal newton_maxiter newton_tol rhs dt u0 sqrtf =
      newtonLoop newton_tol dt rhs sqrtf newton_maxiter u0 0 (some 99) := rfl
  refine ⟨?_, ?_, ?_⟩
  · intro hnan
    have hlt : (newtonFinal newton_maxiter newton_tol rhs dt u0 sqrtf).2.1 <
        newton_maxiter := by
      have := newtonLoop_nan_stops_early newton_tol dt rhs sqrtf newton_maxiter
        u0 (some 99) 0 rfl (by rw [← hunf]; exact hnan)
      rw [← hunf] at this
      omega
    have hne : ¬ (newtonFinal newton_maxiter newton_tol rhs dt u0 sqrtf).2.1 =
        newton_maxiter := by omega
    constructor
    · intro hstop
      simp [solve_system, hnan, hstop]
    · intro hstop
      simp [solve_system, hnan, hstop, hne]
  · intro heq
    have hex := newtonLoop_exhaust newton_tol dt rhs sqrtf newton_maxiter
      u0 (some 99) 0 hmax (by rw [← hunf]; omega)
    rw [← hunf] at hex
    simp [solve_system, hex.2, heq]
  · intro hlt3
    have hnn : fvIsNan (newtonFinal newton_maxiter newton_tol rhs dt u0 sqrtf).2.2 =
        false := fvLt_true_not_nan _ _ hlt3
    have hne : ¬ (newtonFinal newton_maxiter newton_tol rhs dt u0 sqrtf).2.1 =
        newton_maxiter := by
      intro heq
      have hex := newtonLoop_exhaust newton_tol dt rhs sqrtf newton_maxiter
        u0 (some 99) 0 hmax (by rw [← hunf]; omega)
      rw [← hunf] at hex
      rw [hex.1] at hlt3
      exact absurd hlt3 (by simp)
    simp [solve_system, hnn, hne]

/-- C7 witness: `newton_maxiter = 1`, `stop_at_nan = true`, `tol = 1`,
`rhs = 0`, `dt = 0`, `u0 = some 0`. -/
theorem C7_solve_system_termination_witness :
    (fvIsNan (newtonFinal 1 1 0 0 (some 0) sqrtWitness).2.2 = true →
      (true = true →
        solve_system 1 1 true 0 0 (some 0) sqrtWitness =
          (SolveRes.raiseNanError (newtonFinal 1 1 0 0 (some 0) sqrtWitness).2.1, false)) ∧
      (true = false →
        solve_system 1 1 true 0 0 (some 0) sqrtWitness =
          (SolveRes.retVal (newtonFinal 1 1 0 0 (some 0) sqrtWitness).1, true))) ∧
    ((newtonFinal 1 1 0 0 (some 0) sqrtWitness).2.1 = 1 →
      solve_system 1 1 true 0 0 (some 0) sqrtWitness =
        (SolveRes.raiseNoConvergence 1 (newtonFinal 1 1 0 0 (some 0) sqrtWitness).2.2, false)) ∧
    (fvLt (newtonFinal 1 1 0 0 (some 0) sqrtWitness).2.2 (some 1) = true →
      solve_system 1 1 true 0 0 (some 0) sqrtWitness =
        (SolveRes.retVal (newtonFinal 1 1 0 0 (some 0) sqrtWitness).1, false)) :=
  C7_solve_system_termination 1 1 true 0 0 (some 0) sqrtWitness (by decide)

/-- C10: with `newton_maxiter = 0` the loop body never runs, so
`solve_system` always raises the non-convergence `ProblemError` with
`n = 0` and the sentinel residual 99 — even when the initial guess already
satisfies the residual tolerance (the hypothesis). -/
theorem C10_maxiter_zero_always_raises (newton_tol : ℚ) (stop_at_nan : Bool)
    (rhs dt : ℚ) (u0 : FV) (sqrtf : ℚ → FV)
    (_h : fvLt (fvAbs (g_residual dt rhs sqrtf u0)) (some newton_tol) = true) :
    solve_system 0 newton_tol stop_at_nan rhs dt u0 sqrtf =
      (SolveRes.raiseNoConvergence 0 (some 99), false) := by
  simp [solve_system, newtonFinal, newtonLoop, fvIsNan]

/-- C10 witness: `u0 = some 0` with `dt = 0`, `rhs = 0` has residual 0,
below the tolerance 1, yet the call still raises. -/
theorem C10_maxiter_zero_always_raises_witness :
    solve_system 0 1 true 0 0 (some 0) sqrtWitness =
      (SolveRes.raiseNoConvergence 0 (some 99), false) :=
  C10_maxiter_zero_always_raises 1 true 0 0 (some 0) sqrtWitness
    (by norm_num [g_residual, fvSub, fvMul, fvSqrt, sqrtWitness, fvAbs, fvLt])

end NODE
